import Mathlib

/-!
Verification of the `my_bot_name` service template.

This file shallowly embeds the pure logic of the repository's Python code:
the configuration resolver in `src/my_bot_name/__init__.py`, the typed HTTP
error handler in `src/my_bot_name/app.py`, and the two GCP connector classes
in `src/my_bot_name/connectors/gcp/{bigquery,storage}.py`.  Python dicts are
modelled as insertion-ordered association lists, exceptions as `Except`,
the local filesystem and the remote bucket as association lists, and the
foreign SDK calls as explicit parameters describing the service's outcome.
-/

/-! ## Python value model

A Python value as it appears in a parsed YAML configuration: scalars or a
nested dict.  A dict is an insertion-ordered association list with unique
keys; `dictGet` is `d[k]` / `k in d`, and `dictSet` is `d[k] = v` (replace
in place if the key is present, append otherwise), matching CPython dict
semantics. -/
inductive PyVal where
  | pyStr : String → PyVal
  | pyInt : Int → PyVal
  | pyDict : List (String × PyVal) → PyVal
deriving Repr

abbrev PyDict := List (String × PyVal)

/-- Python `d[key]` as an `Option` (also used for `key in d`). -/
def dictGet (d : PyDict) (key : String) : Option PyVal :=
  match d with
  | [] => none
  | (k, v) :: rest => if k = key then some v else dictGet rest key

/-- Python `d[key] = value`: replace the first binding in place, else append. -/
def dictSet (d : PyDict) (key : String) (value : PyVal) : PyDict :=
  match d with
  | [] => [(key, value)]
  | (k, v) :: rest =>
      if k = key then (k, value) :: rest else (k, v) :: dictSet rest key value

/-- Python `isinstance(v, dict)`. -/
def isDict : PyVal → Bool
  | .pyDict _ => true
  | _ => false

/-- Exceptions raised by the configuration module: the `NameError` raised by
referencing an undefined name, and `FileNotFoundError` from `open`. -/
inductive PyErr where
  | nameError : String → PyErr
  | fileNotFoundError : String → PyErr
deriving Repr, DecidableEq

/-! ## Config resolver (`src/my_bot_name/__init__.py`) -/

/-- The loop body of `_deep_merge` (lines 101-106): `result = dict1.copy()`,
then `for key, value in dict2.items()`.  When `key in result` and both
`result[key]` and `value` are dicts, the source calls `deep_merge(...)` —
a name that is **not defined anywhere** in the repository (the function is
called `_deep_merge`), so that branch raises
`NameError: name 'deep_merge' is not defined`.  Otherwise `result[key] = value`. -/
def deepMergeItems (result : PyDict) : List (String × PyVal) → Except PyErr PyDict
  | [] => .ok result
  | (key, value) :: rest =>
      match dictGet result key with
      | some cur =>
          if isDict cur && isDict value then
            .error (.nameError "name 'deep_merge' is not defined")
          else deepMergeItems (dictSet result key value) rest
      | none => deepMergeItems (dictSet result key value) rest

/-- The function `_deep_merge(dict1, dict2)` (lines 95-107): copy `dict1`,
iterate over `dict2.items()` with the loop body above, return the result. -/
def _deep_merge (dict1 dict2 : PyDict) : Except PyErr PyDict :=
  deepMergeItems dict1 dict2

/-- The environment's configuration files, abstracting the `resources/config`
directory: `envFiles env` is `none` when `<env>.yml` does not exist, and
`some parsed` when it exists, where `parsed` is `none` when
`yaml.load` returns `None` (empty file) and `some d` when it returns dict `d`. -/
abbrev EnvFiles := String → Option (Option PyDict)

/-- The function `_get_config_dict(env)` (lines 73-78): it unconditionally
`open`s `<env>.yml` — a missing file raises `FileNotFoundError` — parses it,
and returns `configmap if configmap else {}` (Python truthiness: `None` and
the empty dict are both falsy, so both yield `{}`). -/
def _get_config_dict (files : EnvFiles) (env : String) : Except PyErr PyDict :=
  match files env with
  | none => .error (.fileNotFoundError env)
  | some configmap =>
      .ok (match configmap with
        | none => []
        | some d => if d.isEmpty then [] else d)

/-- The function `_get_env()` (lines 81-92): an `ArgumentParser` whose
`-e`/`--environment` option defaults to
`os.environ.get("ENVIRONMENT", "local")`.  `parse_known_args` yields the
flag's value when the flag was supplied and the default otherwise, so the
resolved environment is the flag, else the environment variable, else
`"local"`.  `flag` is the `-e` value when supplied, `envVar` the
`ENVIRONMENT` variable when set. -/
def _get_env (flag envVar : Option String) : String :=
  match flag with
  | some f => f
  | none =>
      match envVar with
      | some v => v
      | none => "local"

/-! ## HTTP error handler (`src/my_bot_name/app.py`) -/

/-- A JSON response: status code plus a flat JSON-object body. -/
structure JSONResponse where
  status_code : Nat
  content : List (String × String)
deriving Repr, DecidableEq

/-- The handler `unicorn_exception_handler` (lines 274-279): a raised
`UnicornException(name)` is mapped to status 418 with body
`{"message": f"Oops! {exc.name} did something. There goes a raibow..."}`. -/
def unicorn_exception_handler (name : String) : JSONResponse :=
  { status_code := 418
    content := [("message",
      "Oops! " ++ name ++ " did something. There goes a raibow...")] }

/-! ## GCP connectors: common service model

An error reported by a Google Cloud service call: the `NotFound` condition
(`google.api_core.exceptions.NotFound` / `google.cloud.exceptions.NotFound`)
or any other exception, carried opaquely as its message.  A foreign SDK call
is embedded as an explicit `Except GErr α` argument describing the outcome
the service produced for this call. -/
inductive GErr where
  | notFound : GErr
  | other : String → GErr
deriving Repr, DecidableEq

/-- Blob contents: an opaque byte string. -/
abbrev Bytes := List Nat

/-- Python `s.startswith(t)`, computed on the underlying character list. -/
def strStartsWith (s t : String) : Bool :=
  t.data.isPrefixOf s.data

/-- Python `s.endswith(t)`, computed on the underlying character list. -/
def strEndsWith (s t : String) : Bool :=
  t.data.isSuffixOf s.data

/-! ## BigQuery connector (`src/my_bot_name/connectors/gcp/bigquery.py`) -/

/-- The method `execute_query` (lines 18-41): the client call's outcome is
`service`; on success the dataframe is returned, on any exception the
connector logs and bare-`raise`s, so the error propagates unchanged. -/
def execute_query {α : Type} (service : Except GErr α) : Except GErr α :=
  match service with
  | .ok result => .ok result
  | .error e => .error e

/-- The query string built by `get_table_data` (lines 57-59):
`f"SELECT * FROM `{dataset_id}.{table_id}`"`, and `if limit:` (Python
truthiness — `None` and `0` are both falsy) append `f" LIMIT {limit}"`. -/
def getTableDataQuery (dataset_id table_id : String) (limit : Option Int) :
    String :=
  let query := "SELECT * FROM `" ++ dataset_id ++ "." ++ table_id ++ "`"
  match limit with
  | none => query
  | some n => if n = 0 then query else query ++ " LIMIT " ++ toString n

/-- The method `get_table_data` (lines 43-66): build the query and delegate
to `execute_query`, embedded as the function `execQ` submitting a query
string to the service. -/
def get_table_data {α : Type} (execQ : String → α)
    (dataset_id table_id : String) (limit : Option Int) : α :=
  execQ (getTableDataQuery dataset_id table_id limit)

/-- The method `table_exists` (lines 68-90): attempt `client.get_table`
(outcome `service`); success returns `True`, the `NotFound` exception is
caught and returns `False`, and any other exception is logged and
bare-`raise`d. -/
def table_exists (service : Except GErr Unit) : Except GErr Bool :=
  match service with
  | .ok _ => .ok true
  | .error .notFound => .ok false
  | .error (.other e) => .error (.other e)

/-! ## Storage connector (`src/my_bot_name/connectors/gcp/storage.py`) -/

/-- An exception escaping a storage-connector method: either the Python
`FileNotFoundError` constructed by `download_blob`, or a service error
propagated unchanged. -/
inductive StorageErr where
  | fileNotFoundError : String → StorageErr
  | service : GErr → StorageErr
deriving Repr, DecidableEq

/-- The method `download_blob` (lines 19-44) over the outcome `service` of
`blob.download_as_bytes()`: the content is returned on success; the
`NotFound` exception is caught and re-raised as
`FileNotFoundError(f"Blob {blob_name} not found in bucket {bucket_name}")`;
any other exception is logged and bare-`raise`d, propagating unchanged. -/
def download_blob (bucket_name blob_name : String)
    (service : Except GErr Bytes) : Except StorageErr Bytes :=
  match service with
  | .ok content => .ok content
  | .error .notFound =>
      .error (.fileNotFoundError
        ("Blob " ++ blob_name ++ " not found in bucket " ++ bucket_name))
  | .error (.other e) => .error (.service (.other e))

/-- The objects of one bucket: an association list from blob name to
content, in the service's listing order. -/
abbrev Bucket := List (String × Bytes)

/-- Look a blob name up in a bucket; `blob.download_as_bytes()` succeeds
with the stored content exactly when the name is present, and raises
`NotFound` otherwise. -/
def bucketGet (bucket : Bucket) (name : String) : Option Bytes :=
  match bucket with
  | [] => none
  | (k, v) :: rest => if k = name then some v else bucketGet rest name

/-- The outcome of `blob.download_as_bytes()` against `bucket`. -/
def downloadAsBytes (bucket : Bucket) (name : String) : Except GErr Bytes :=
  match bucketGet bucket name with
  | some content => .ok content
  | none => .error .notFound

/-- The method `list_blobs` (lines 77-98): `client.list_blobs(bucket,
prefix=p)` yields the names of the objects whose name starts with `p` (all
objects when `p` is `None`), in listing order; errors from the service would
be re-raised unchanged (the happy path is modelled, as the claims only use
the listing's value). -/
def list_blobs (bucket : Bucket) (pre : Option String) : List String :=
  match pre with
  | none => bucket.map Prod.fst
  | some p => (bucket.filter (fun b => strStartsWith b.fst p)).map Prod.fst

/-- The cross-bucket storage service state used by `upload_blob`: all objects
keyed by bucket name and blob name, plus the set of objects made public. -/
structure StorageState where
  objects : List ((String × String) × Bytes)
  publicObjects : List (String × String)
deriving Repr, DecidableEq

/-- `blob.public_url` of the `google-cloud-storage` SDK: the
`storage.googleapis.com` URL of the object. -/
def public_url (bucket_name blob_name : String) : String :=
  "https://storage.googleapis.com/" ++ bucket_name ++ "/" ++ blob_name

/-- The method `upload_blob` (lines 46-75): `blob.upload_from_filename`
reads the local file (`none` when the file is missing, in which case the
raised error propagates via the bare `raise`), stores its bytes as the
named object, then `if is_public: blob.make_public()`, and finally returns
`blob.public_url` — unconditionally, whether or not `is_public` was set. -/
def upload_blob (st : StorageState) (bucket_name blob_name : String)
    (file_path : Option Bytes) (is_public : Bool) :
    Except StorageErr (StorageState × String) :=
  match file_path with
  | none => .error (.fileNotFoundError blob_name)
  | some content =>
      let st1 : StorageState :=
        { st with objects := ((bucket_name, blob_name), content) :: st.objects }
      let st2 : StorageState :=
        if is_public then
          { st1 with publicObjects := (bucket_name, blob_name) :: st1.publicObjects }
        else st1
      .ok (st2, public_url bucket_name blob_name)

/-- Whether `(bucket_name, blob_name)` is stored with content `c` in `st`:
the most recent upload wins. -/
def storedContent (st : StorageState) (bucket_name blob_name : String) :
    Option Bytes :=
  match st.objects.find? (fun o => o.fst = (bucket_name, blob_name)) with
  | some o => some o.snd
  | none => none

/-! ## POSIX path helpers used by `download_folder`

`os.path.relpath(path, start)` on POSIX first makes both arguments absolute
against the same working directory; for relative arguments free of `.` and
`..` components the shared working-directory components cancel in the common
prefix, leaving: split both on `/` dropping empty components, drop the common
prefix, and prepend one `..` per remaining `start` component. -/

/-- Split a character list on `/` (Python `s.split('/')`), accumulating the
current component in reverse. -/
def splitSlash : List Char → List Char → List String
  | [], acc => [String.mk acc.reverse]
  | c :: rest, acc =>
      if c = '/' then String.mk acc.reverse :: splitSlash rest []
      else splitSlash rest (c :: acc)

/-- Path components: split on `/`, dropping empty components. -/
def pathParts (p : String) : List String :=
  (splitSlash p.data []).filter (fun c => c ≠ "")

/-- Length of the longest common prefix of two component lists
(`posixpath.commonprefix` on the split lists). -/
def commonLen : List String → List String → Nat
  | a :: as, b :: bs => if a = b then commonLen as bs + 1 else 0
  | _, _ => 0

/-- `os.path.relpath(path, start)` for relative POSIX paths without `.` or
`..` components. -/
def relpath (path start : String) : String :=
  let pl := pathParts path
  let sl := pathParts start
  let i := commonLen sl pl
  let rel := List.replicate (sl.length - i) ".." ++ pl.drop i
  if rel.isEmpty then "." else String.intercalate "/" rel

/-- `os.path.join(a, b)` on POSIX: `b` when `b` is absolute; otherwise `a`
and `b` glued with a `/` unless `a` is empty or already ends in `/`. -/
def pathJoin (a b : String) : String :=
  if strStartsWith b "/" then b
  else if a = "" || strEndsWith a "/" then a ++ b
  else a ++ "/" ++ b

/-- The local filesystem, as an association list from path to file bytes
(directories are implicit: `os.makedirs` only ensures parents exist). -/
abbrev FS := List (String × Bytes)

/-- File lookup in the local filesystem. -/
def fsLookup (fs : FS) (path : String) : Option Bytes :=
  match fs with
  | [] => none
  | (k, v) :: rest => if k = path then some v else fsLookup rest path

/-- `open(path, "wb").write(content)`: truncate-and-write, replacing any
existing file at `path`. -/
def writeFile (fs : FS) (path : String) (content : Bytes) : FS :=
  match fs with
  | [] => [(path, content)]
  | (k, v) :: rest =>
      if k = path then (k, content) :: rest
      else (k, v) :: writeFile rest path content

/-- The loop of `download_folder` (lines 118-137): skip names ending in `/`,
compute `local_file_path = os.path.join(local_folder,
os.path.relpath(blob_name, gcs_folder))`, download the blob (an error
propagates and aborts the loop), and write the content to the local file. -/
def downloadFolderItems (bucket_name : String) (bucket : Bucket)
    (gcs_folder local_folder : String) :
    List String → FS → Except StorageErr FS
  | [], fs => .ok fs
  | blob_name :: rest, fs =>
      if strEndsWith blob_name "/" then
        downloadFolderItems bucket_name bucket gcs_folder local_folder rest fs
      else
        match download_blob bucket_name blob_name
            (downloadAsBytes bucket blob_name) with
        | .error e => .error e
        | .ok content =>
            downloadFolderItems bucket_name bucket gcs_folder local_folder rest
              (writeFile fs
                (pathJoin local_folder (relpath blob_name gcs_folder)) content)

/-- The method `download_folder` (lines 100-143): list the blobs under the
prefix `gcs_folder`, then run the download loop over the listing against the
local filesystem `fs`.  `bucket` holds the objects of the bucket named
`bucket_name`. -/
def download_folder (bucket_name : String) (bucket : Bucket)
    (gcs_folder local_folder : String) (fs : FS) : Except StorageErr FS :=
  downloadFolderItems bucket_name bucket gcs_folder local_folder
    (list_blobs bucket (some gcs_folder)) fs

/-- The download tasks built by `download_folder_async` (lines 209-227):
exactly the sequential loop's computation — skip names ending in `/`,
compute the local path — but collected as `(local_file_path, content)`
pairs to be executed concurrently (a name whose download would fail
contributes no completed task). -/
def tasksOf (bucket : Bucket) (gcs_folder local_folder : String)
    (names : List String) : List (String × Bytes) :=
  names.filterMap (fun blob_name =>
    if strEndsWith blob_name "/" then none
    else
      (bucketGet bucket blob_name).map (fun content =>
        (pathJoin local_folder (relpath blob_name gcs_folder), content)))

/-- The completed task list of `download_folder_async`: `tasksOf` over the
listing, exactly as built by lines 209-227. -/
def downloadTasks (bucket : Bucket) (gcs_folder local_folder : String) :
    List (String × Bytes) :=
  tasksOf bucket gcs_folder local_folder (list_blobs bucket (some gcs_folder))

/-- Execute write tasks in completion order: each `_download_and_save` task
(lines 239-249) writes its downloaded content to its own local path. -/
def runTasks (fs : FS) (tasks : List (String × Bytes)) : FS :=
  match tasks with
  | [] => fs
  | (path, content) :: rest => runTasks (writeFile fs path content) rest

/-- The method `download_folder_async` (lines 193-237): the task list is
built sequentially (it equals `downloadTasks`), then `asyncio.gather` runs
all `_download_and_save` tasks concurrently; each task's file write is
atomic at task granularity, so a concurrent execution is a run of the tasks
in some completion order `completed`, a permutation of the task list. -/
def download_folder_async (fs : FS) (completed : List (String × Bytes)) : FS :=
  runTasks fs completed

/-! ## Heap model of `_deep_merge` for the mutation claim

To reason about in-place mutation and reference reuse, dicts are placed on
an explicit heap: a `Store` maps addresses (list indices) to dict bodies,
and a value is either a non-dict scalar or a reference to a dict.  Writing
`result[key] = value` mutates only the dict at `result`'s address; `copy()`
allocates a fresh address holding the same entries (so nested values are
shared by reference, as Python's shallow `dict.copy` does). -/
inductive HVal where
  | prim : Int → HVal
  | ref : Nat → HVal
deriving Repr, DecidableEq

/-- A dict body on the heap: insertion-ordered bindings of heap values. -/
abbrev HDict := List (String × HVal)

/-- The heap: address `a` holds the dict body `store.getD a []`. -/
abbrev Store := List HDict

/-- Read the dict at address `a`. -/
def storeGet (s : Store) (a : Nat) : HDict :=
  s.getD a []

/-- Overwrite the dict at address `a` (mutation of that one object). -/
def storeSet (s : Store) (a : Nat) (d : HDict) : Store :=
  s.set a d

/-- Python `d[key]` on a heap dict body. -/
def hdictGet (d : HDict) (key : String) : Option HVal :=
  match d with
  | [] => none
  | (k, v) :: rest => if k = key then some v else hdictGet rest key

/-- Python `d[key] = value` on a heap dict body. -/
def hdictSet (d : HDict) (key : String) (value : HVal) : HDict :=
  match d with
  | [] => [(key, value)]
  | (k, v) :: rest =>
      if k = key then (k, value) :: rest else (k, v) :: hdictSet rest key value

/-- Python `isinstance(v, dict)` in the heap model: dicts live behind refs. -/
def isRef : HVal → Bool
  | .ref _ => true
  | _ => false

/-- The loop of `_deep_merge` in the heap model: iterate over the items of
`dict2` (snapshotted — the loop never writes `dict2`'s address), writing
only the result dict at address `raddr`; the dict-dict branch raises the
`NameError` exactly as in the value model. -/
def deepMergeRefItems (raddr : Nat) :
    List (String × HVal) → Store → Except PyErr Store
  | [], s => .ok s
  | (key, value) :: rest, s =>
      let result := storeGet s raddr
      match hdictGet result key with
      | some cur =>
          if isRef cur && isRef value then
            .error (.nameError "name 'deep_merge' is not defined")
          else
            deepMergeRefItems raddr rest
              (storeSet s raddr (hdictSet result key value))
      | none =>
          deepMergeRefItems raddr rest
            (storeSet s raddr (hdictSet result key value))

/-- `_deep_merge(dict1, dict2)` in the heap model, `dict1` and `dict2` given
by their addresses `a1` and `a2`: `result = dict1.copy()` allocates a fresh
dict at address `s.length` holding `dict1`'s entries (nested dicts shared by
reference), then the loop merges `dict2`'s items into it and the result's
address is returned. -/
def deepMergeRef (s : Store) (a1 a2 : Nat) : Except PyErr (Store × Nat) :=
  match deepMergeRefItems s.length (storeGet s a2) (s ++ [storeGet s a1]) with
  | .ok s2 => .ok (s2, s.length)
  | .error e => .error e

/-! ## Concrete example data (witnesses) -/

/-- The spec's `download_folder` example bucket: objects `a/1.txt`,
`a/2.txt` and the pseudo-folder marker `a/sub/`. -/
def exampleBucket : Bucket :=
  [("a/1.txt", [1]), ("a/2.txt", [2]), ("a/sub/", [])]

/-! ## Claim theorems -/

/-- C1 (code bug): the deep-merge claim fails on the code because the
recursive branch of `_deep_merge` calls the undefined name `deep_merge`:
merging `{"a": {"x": 1}}` with `{"a": {"y": 2}}` raises
`NameError: name 'deep_merge' is not defined` instead of recursively
merging the two sub-dicts. -/
theorem deep_merge_nested_raises_name_error :
    _deep_merge [("a", PyVal.pyDict [("x", PyVal.pyInt 1)])]
        [("a", PyVal.pyDict [("y", PyVal.pyInt 2)])] =
      Except.error (PyErr.nameError "name 'deep_merge' is not defined") := rfl

/-- C2 (counterexample): loading a configuration document whose file does not
exist does not return an empty mapping — the unconditional `open` in
`_get_config_dict` raises `FileNotFoundError`, so config resolution fails. -/
theorem get_config_dict_missing_file_raises :
    _get_config_dict (fun _ => none) "production" =
        Except.error (PyErr.fileNotFoundError "production") ∧
    _get_config_dict (fun _ => none) "production" ≠ Except.ok [] :=
  ⟨rfl, fun h => nomatch h⟩

/-- C2 (amended): a present-but-empty (or null) document resolves to an empty
mapping, but a missing document file raises a file-not-found error rather
than contributing an empty mapping. -/
theorem get_config_dict_empty_and_missing :
    (∀ (files : EnvFiles) (env : String), files env = some none →
        _get_config_dict files env = Except.ok []) ∧
    (∀ (files : EnvFiles) (env : String), files env = none →
        _get_config_dict files env =
          Except.error (PyErr.fileNotFoundError env)) := by
  refine ⟨fun files env h => ?_, fun files env h => ?_⟩ <;>
    simp [_get_config_dict, h]

/-- C2 witness: the amended statement at the concrete file layouts where every
document is empty, respectively where no document exists. -/
theorem get_config_dict_empty_and_missing_witness :
    _get_config_dict (fun _ => some none) "local" = Except.ok [] ∧
    _get_config_dict (fun _ => none) "local" =
      Except.error (PyErr.fileNotFoundError "local") :=
  ⟨get_config_dict_empty_and_missing.1 (fun _ => some none) "local" rfl,
   get_config_dict_empty_and_missing.2 (fun _ => none) "local" rfl⟩

/-- C5: environment selection precedence — the `-e`/`--environment` flag wins
whenever supplied, regardless of the `ENVIRONMENT` variable; otherwise the
variable's value when set; otherwise the literal `"local"`. -/
theorem env_selection_precedence :
    (∀ (f : String) (envVar : Option String), _get_env (some f) envVar = f) ∧
    (∀ v : String, _get_env none (some v) = v) ∧
    _get_env none none = "local" :=
  ⟨fun _ _ => rfl, fun _ => rfl, rfl⟩

/-- C9: a handler raising `UnicornException(n)` yields status 418 and body
`{"message": "Oops! <n> did something. There goes a raibow..."}`; in
particular the name `"Widget"` yields exactly the literal body from the spec. -/
theorem unicorn_exception_maps_to_418 :
    (∀ n : String, (unicorn_exception_handler n).status_code = 418 ∧
        (unicorn_exception_handler n).content =
          [("message",
            "Oops! " ++ n ++ " did something. There goes a raibow...")]) ∧
    unicorn_exception_handler "Widget" =
      { status_code := 418
        content := [("message",
          "Oops! Widget did something. There goes a raibow...")] } :=
  ⟨fun _ => ⟨rfl, rfl⟩, by decide⟩

/-- C3: for every successful `upload_blob` call the uploaded object holds the
local file's bytes, the returned value is the blob's public URL whether or
not `is_public` is set, and the object is additionally made publicly
readable (before returning) exactly when `is_public` is set. -/
theorem upload_blob_success_spec (st : StorageState)
    (bucket_name blob_name : String) (content : Bytes) (is_public : Bool) :
    ∃ st2 : StorageState,
      upload_blob st bucket_name blob_name (some content) is_public =
          Except.ok (st2, public_url bucket_name blob_name) ∧
      storedContent st2 bucket_name blob_name = some content ∧
      st2.publicObjects =
        (if is_public then (bucket_name, blob_name) :: st.publicObjects
         else st.publicObjects) := by
  cases is_public <;> exact ⟨_, rfl, by simp [storedContent], rfl⟩

/-- C4: connector methods re-raise service errors unchanged (never swallow
them), with exactly two exceptions: `table_exists` returns `false` exactly
when the service reports `NotFound` (propagating any other error), and
`download_blob` maps the service's `NotFound` to a `FileNotFoundError`
while returning the stored bytes of an existing object. -/
theorem connector_error_propagation :
    (∀ (r : Bytes), execute_query (Except.ok r) = Except.ok r) ∧
    (∀ (e : GErr), execute_query (α := Bytes) (Except.error e) = Except.error e) ∧
    (∀ (u : Unit), table_exists (Except.ok u) = Except.ok true) ∧
    (∀ (service : Except GErr Unit),
        table_exists service = Except.ok false ↔
          service = Except.error GErr.notFound) ∧
    (∀ (m : String), table_exists (Except.error (GErr.other m)) =
        Except.error (GErr.other m)) ∧
    (∀ (bn n : String) (content : Bytes),
        download_blob bn n (Except.ok content) = Except.ok content) ∧
    (∀ (bn n : String),
        download_blob bn n (Except.error GErr.notFound) =
          Except.error (StorageErr.fileNotFoundError
            ("Blob " ++ n ++ " not found in bucket " ++ bn))) ∧
    (∀ (bn n m : String),
        download_blob bn n (Except.error (GErr.other m)) =
          Except.error (StorageErr.service (GErr.other m))) := by
  refine ⟨fun _ => rfl, fun _ => rfl, fun _ => rfl, fun service => ?_,
    fun _ => rfl, fun _ _ _ => rfl, fun _ _ => rfl, fun _ _ _ => rfl⟩
  match service with
  | .ok _ => simp [table_exists]
  | .error .notFound => simp [table_exists]
  | .error (.other m) => simp [table_exists]

/-- C10: `get_table_data` submits to `execute_query` exactly the string
`SELECT * FROM <backtick><dataset>.<table><backtick>`, with
` LIMIT <limit>` appended only when `limit` is truthy; passing `limit = 0`
produces the same un-capped query as omitting the limit, and identifiers
are interpolated verbatim. -/
theorem get_table_data_query_spec :
    (∀ (α : Type) (execQ : String → α) (d t : String),
        get_table_data execQ d t none =
          execQ ("SELECT * FROM `" ++ d ++ "." ++ t ++ "`")) ∧
    (∀ (α : Type) (execQ : String → α) (d t : String) (n : Int), n ≠ 0 →
        get_table_data execQ d t (some n) =
          execQ ("SELECT * FROM `" ++ d ++ "." ++ t ++ "`" ++ " LIMIT " ++
            toString n)) ∧
    (∀ (α : Type) (execQ : String → α) (d t : String),
        get_table_data execQ d t (some 0) = get_table_data execQ d t none) := by
  refine ⟨fun _ _ _ _ => rfl, fun α execQ d t n hn => ?_, fun _ _ _ _ => rfl⟩
  simp [get_table_data, getTableDataQuery, hn]

/-- C10 witness: the query built for dataset `ds`, table `tbl`, and the
truthy limit `5`. -/
theorem get_table_data_query_spec_witness :
    get_table_data id "ds" "tbl" (some 5) =
      id ("SELECT * FROM `" ++ "ds" ++ "." ++ "tbl" ++ "`" ++ " LIMIT " ++
        toString (5 : Int)) :=
  get_table_data_query_spec.2.1 String id "ds" "tbl" 5 (by decide)

/-! ### Helper lemmas for the folder-download claims -/

/-- Writing a file changes exactly the written path. -/
theorem fsLookup_writeFile (fs : FS) (path : String) (content : Bytes)
    (p : String) :
    fsLookup (writeFile fs path content) p =
      if path = p then some content else fsLookup fs p := by
  induction fs with
  | nil => simp only [writeFile, fsLookup]
  | cons kv rest ih =>
      obtain ⟨k, v⟩ := kv
      by_cases h1 : k = path <;> by_cases h2 : path = p <;>
        simp_all [writeFile, fsLookup]

/-- Running tasks leaves paths outside the task list untouched. -/
theorem fsLookup_runTasks_not_mem (tasks : List (String × Bytes)) (fs : FS)
    (p : String) (h : p ∉ tasks.map Prod.fst) :
    fsLookup (runTasks fs tasks) p = fsLookup fs p := by
  induction tasks generalizing fs with
  | nil => rfl
  | cons t rest ih =>
      obtain ⟨path, content⟩ := t
      simp only [List.map_cons, List.mem_cons, not_or] at h
      rw [show runTasks fs ((path, content) :: rest) =
            runTasks (writeFile fs path content) rest from rfl]
      rw [ih _ h.2, fsLookup_writeFile, if_neg (fun hh => h.1 hh.symm)]

/-- With pairwise-distinct target paths, the file at a task's path holds
that task's content after all tasks ran, in any order of the list. -/
theorem fsLookup_runTasks_mem (tasks : List (String × Bytes)) (fs : FS)
    (p : String) (c : Bytes) (hn : (tasks.map Prod.fst).Nodup)
    (hmem : (p, c) ∈ tasks) :
    fsLookup (runTasks fs tasks) p = some c := by
  induction tasks generalizing fs with
  | nil => cases hmem
  | cons t rest ih =>
      obtain ⟨path, content⟩ := t
      simp only [List.map_cons, List.nodup_cons] at hn
      rw [show runTasks fs ((path, content) :: rest) =
            runTasks (writeFile fs path content) rest from rfl]
      rcases List.mem_cons.mp hmem with heq | hrest
      · injection heq with h1 h2
        subst h1; subst h2
        rw [fsLookup_runTasks_not_mem rest _ _ hn.1, fsLookup_writeFile, if_pos rfl]
      · exact ih _ hn.2 hrest

/-- A listed blob name is a key of the bucket, so its download succeeds. -/
theorem bucketGet_isSome_of_mem (bucket : Bucket) (k : String) (v : Bytes)
    (h : (k, v) ∈ bucket) : (bucketGet bucket k).isSome := by
  induction bucket with
  | nil => cases h
  | cons b rest ih =>
      obtain ⟨k2, v2⟩ := b
      rcases List.mem_cons.mp h with heq | hrest
      · injection heq with h1 _
        subst h1; simp [bucketGet]
      · by_cases hk : k2 = k
        · simp [bucketGet, hk]
        · simp only [bucketGet, if_neg hk]
          exact ih hrest

/-- Every name produced by `list_blobs` has an object in the bucket. -/
theorem listed_names_exist (bucket : Bucket) (p : String) :
    ∀ n ∈ list_blobs bucket (some p), (bucketGet bucket n).isSome := by
  intro n hn
  simp only [list_blobs, List.mem_map] at hn
  obtain ⟨⟨k, v⟩, hmem, rfl⟩ := hn
  exact bucketGet_isSome_of_mem bucket k v (List.mem_filter.mp hmem).1

/-- With distinct blob names, lookup returns the unique stored content. -/
theorem bucketGet_eq_of_mem_nodup (bucket : Bucket) (k : String) (v : Bytes)
    (hn : (bucket.map Prod.fst).Nodup) (h : (k, v) ∈ bucket) :
    bucketGet bucket k = some v := by
  induction bucket with
  | nil => cases h
  | cons b rest ih =>
      obtain ⟨k2, v2⟩ := b
      simp only [List.map_cons, List.nodup_cons] at hn
      rcases List.mem_cons.mp h with heq | hrest
      · injection heq with h1 h2
        subst h1; subst h2; simp [bucketGet]
      · have hne : k2 ≠ k := by
          intro he; subst he
          exact hn.1 (List.mem_map_of_mem Prod.fst hrest)
        simp only [bucketGet, if_neg hne]
        exact ih hn.2 hrest

/-- The download loop equals downloading all tasks in listing order, as long
as every listed name exists in the bucket (no download fails). -/
theorem downloadFolderItems_eq_runTasks (bucket_name : String)
    (bucket : Bucket) (gcs_folder local_folder : String)
    (names : List String) (fs : FS)
    (h : ∀ n ∈ names, (bucketGet bucket n).isSome) :
    downloadFolderItems bucket_name bucket gcs_folder local_folder names fs =
      Except.ok (runTasks fs (tasksOf bucket gcs_folder local_folder names)) := by
  induction names generalizing fs with
  | nil => rfl
  | cons n rest ih =>
      have hn := h n (List.mem_cons_self n rest)
      have hrest : ∀ m ∈ rest, (bucketGet bucket m).isSome :=
        fun m hm => h m (List.mem_cons_of_mem n hm)
      by_cases hslash : strEndsWith n "/" = true
      · have hstep : downloadFolderItems bucket_name bucket gcs_folder
            local_folder (n :: rest) fs =
            downloadFolderItems bucket_name bucket gcs_folder local_folder
              rest fs := by
          simp [downloadFolderItems, hslash]
        have htasks : tasksOf bucket gcs_folder local_folder (n :: rest) =
            tasksOf bucket gcs_folder local_folder rest := by
          simp [tasksOf, List.filterMap_cons, hslash]
        rw [hstep, htasks]
        exact ih _ hrest
      · obtain ⟨content, hc⟩ := Option.isSome_iff_exists.mp hn
        have hstep : downloadFolderItems bucket_name bucket gcs_folder
            local_folder (n :: rest) fs =
            downloadFolderItems bucket_name bucket gcs_folder local_folder
              rest
              (writeFile fs (pathJoin local_folder (relpath n gcs_folder))
                content) := by
          simp [downloadFolderItems, hslash, downloadAsBytes, hc, download_blob]
        have htasks : tasksOf bucket gcs_folder local_folder (n :: rest) =
            (pathJoin local_folder (relpath n gcs_folder), content) ::
              tasksOf bucket gcs_folder local_folder rest := by
          simp [tasksOf, List.filterMap_cons, hslash, hc]
        rw [hstep, htasks]
        rw [show runTasks fs
              ((pathJoin local_folder (relpath n gcs_folder), content) ::
                tasksOf bucket gcs_folder local_folder rest) =
            runTasks
              (writeFile fs (pathJoin local_folder (relpath n gcs_folder))
                content)
              (tasksOf bucket gcs_folder local_folder rest) from rfl]
        exact ih _ hrest

/-- A non-pseudo-folder object under the prefix contributes its download
task at the joined local path. -/
theorem task_mem_of_bucket_mem (bucket : Bucket)
    (gcs_folder local_folder name : String) (content : Bytes)
    (hb : (bucket.map Prod.fst).Nodup) (hmem : (name, content) ∈ bucket)
    (hstart : strStartsWith name gcs_folder = true)
    (hslash : strEndsWith name "/" = false) :
    (pathJoin local_folder (relpath name gcs_folder), content) ∈
      downloadTasks bucket gcs_folder local_folder := by
  unfold downloadTasks tasksOf
  rw [List.mem_filterMap]
  refine ⟨name, ?_, ?_⟩
  · simp only [list_blobs, List.mem_map]
    exact ⟨(name, content), List.mem_filter.mpr ⟨hmem, hstart⟩, rfl⟩
  · rw [if_neg (by simp [hslash]),
      bucketGet_eq_of_mem_nodup bucket name content hb hmem]
    rfl

/-- C6: `download_folder` skips every blob name ending in `/` and, provided
the computed local paths do not collide, writes each remaining blob's
content to the path obtained by joining `local_folder` with the blob name's
path relative to the prefix, touching no other local path. -/
theorem download_folder_spec (bucket_name : String) (bucket : Bucket)
    (gcs_folder local_folder : String) (fs : FS)
    (hb : (bucket.map Prod.fst).Nodup)
    (ht : ((downloadTasks bucket gcs_folder local_folder).map Prod.fst).Nodup) :
    ∃ fs2,
      download_folder bucket_name bucket gcs_folder local_folder fs =
          Except.ok fs2 ∧
      (∀ (name : String) (content : Bytes), (name, content) ∈ bucket →
          strStartsWith name gcs_folder = true →
          strEndsWith name "/" = false →
          fsLookup fs2 (pathJoin local_folder (relpath name gcs_folder)) =
            some content) ∧
      (∀ p, p ∉ (downloadTasks bucket gcs_folder local_folder).map Prod.fst →
          fsLookup fs2 p = fsLookup fs p) := by
  refine ⟨runTasks fs (downloadTasks bucket gcs_folder local_folder),
    downloadFolderItems_eq_runTasks bucket_name bucket gcs_folder local_folder
      _ fs (listed_names_exist bucket gcs_folder), ?_, ?_⟩
  · intro name content hmem hstart hslash
    exact fsLookup_runTasks_mem _ fs _ content ht
      (task_mem_of_bucket_mem bucket gcs_folder local_folder name content hb
        hmem hstart hslash)
  · intro p hp
    exact fsLookup_runTasks_not_mem _ fs p hp

/-- C6 witness: the spec's example — objects `a/1.txt`, `a/2.txt` and the
pseudo-folder marker `a/sub/` under prefix `a` downloaded into `loc`. -/
theorem download_folder_spec_witness :
    (exampleBucket.map Prod.fst).Nodup ∧
    ((downloadTasks exampleBucket "a" "loc").map Prod.fst).Nodup ∧
    (∃ fs2,
      download_folder "bkt" exampleBucket "a" "loc" [] = Except.ok fs2 ∧
      (∀ (name : String) (content : Bytes), (name, content) ∈ exampleBucket →
          strStartsWith name "a" = true → strEndsWith name "/" = false →
          fsLookup fs2 (pathJoin "loc" (relpath name "a")) = some content) ∧
      (∀ p, p ∉ (downloadTasks exampleBucket "a" "loc").map Prod.fst →
          fsLookup fs2 p = fsLookup [] p)) :=
  ⟨by decide, by decide,
   download_folder_spec "bkt" exampleBucket "a" "loc" [] (by decide) (by decide)⟩

/-- C7: with non-colliding local paths, the concurrent folder download —
the sequentially built task list executed in an arbitrary completion order —
produces a local filesystem agreeing everywhere with the sequential
`download_folder`'s result. -/
theorem download_folder_async_matches_sync (bucket_name : String)
    (bucket : Bucket) (gcs_folder local_folder : String) (fs : FS)
    (completed : List (String × Bytes))
    (ht : ((downloadTasks bucket gcs_folder local_folder).map Prod.fst).Nodup)
    (hperm : completed.Perm (downloadTasks bucket gcs_folder local_folder)) :
    ∃ fs2,
      download_folder bucket_name bucket gcs_folder local_folder fs =
          Except.ok fs2 ∧
      ∀ p, fsLookup (download_folder_async fs completed) p = fsLookup fs2 p := by
  have hkeys : (completed.map Prod.fst).Perm
      ((downloadTasks bucket gcs_folder local_folder).map Prod.fst) :=
    hperm.map Prod.fst
  have hcn : (completed.map Prod.fst).Nodup := hkeys.nodup_iff.mpr ht
  refine ⟨runTasks fs (downloadTasks bucket gcs_folder local_folder),
    downloadFolderItems_eq_runTasks bucket_name bucket gcs_folder local_folder
      _ fs (listed_names_exist bucket gcs_folder), ?_⟩
  intro p
  by_cases hp : p ∈ (downloadTasks bucket gcs_folder local_folder).map Prod.fst
  · obtain ⟨⟨p2, c⟩, hmem, hfst⟩ := List.mem_map.mp hp
    cases hfst
    exact (fsLookup_runTasks_mem completed fs p2 c hcn
        (hperm.mem_iff.mpr hmem)).trans
      (fsLookup_runTasks_mem _ fs p2 c ht hmem).symm
  · have hp2 : p ∉ completed.map Prod.fst := fun hc => hp (hkeys.mem_iff.mp hc)
    exact (fsLookup_runTasks_not_mem completed fs p hp2).trans
      (fsLookup_runTasks_not_mem _ fs p hp).symm

/-- C7 witness: the spec's example bucket, with the two download tasks
completing in the opposite of listing order. -/
theorem download_folder_async_matches_sync_witness :
    ((downloadTasks exampleBucket "a" "loc").map Prod.fst).Nodup ∧
    ([(("loc/2.txt" : String), ([2] : Bytes)), ("loc/1.txt", [1])]).Perm
        (downloadTasks exampleBucket "a" "loc") ∧
    (∃ fs2,
      download_folder "bkt" exampleBucket "a" "loc" [] = Except.ok fs2 ∧
      ∀ p, fsLookup
          (download_folder_async [] [("loc/2.txt", [2]), ("loc/1.txt", [1])])
          p = fsLookup fs2 p) :=
  ⟨by decide, by decide,
   download_folder_async_matches_sync "bkt" exampleBucket "a" "loc" []
     [("loc/2.txt", [2]), ("loc/1.txt", [1])] (by decide) (by decide)⟩

/-! ### Helper lemmas for the no-mutation claim -/

/-- Updating a heap dict changes exactly the assigned key. -/
theorem hdictGet_hdictSet (d : HDict) (key : String) (value : HVal)
    (p : String) :
    hdictGet (hdictSet d key value) p =
      if key = p then some value else hdictGet d p := by
  induction d with
  | nil => simp only [hdictSet, hdictGet]
  | cons kv rest ih =>
      obtain ⟨k, v⟩ := kv
      by_cases h1 : k = key <;> by_cases h2 : key = p <;>
        simp_all [hdictSet, hdictGet]

/-- A key absent from a heap dict differs from every binding's key. -/
theorem hdictGet_eq_none_iff (d : HDict) (key : String) :
    hdictGet d key = none ↔ ∀ kv ∈ d, kv.fst ≠ key := by
  induction d with
  | nil => simp [hdictGet]
  | cons kv rest ih =>
      obtain ⟨k, v⟩ := kv
      by_cases hk : k = key <;> simp_all [hdictGet]

/-- Overwriting one address leaves every other address unchanged. -/
theorem storeGet_storeSet_ne (s : Store) (r : Nat) (d : HDict) (a : Nat)
    (h : a ≠ r) : storeGet (storeSet s r d) a = storeGet s a := by
  simp [storeGet, storeSet, List.getD_eq_getElem?_getD,
    List.getElem?_set_ne (Ne.symm h)]

/-- Reading back an in-bounds overwritten address yields the new dict. -/
theorem storeGet_storeSet_self (s : Store) (r : Nat) (d : HDict)
    (h : r < s.length) : storeGet (storeSet s r d) r = d := by
  simp [storeGet, storeSet, List.getD_eq_getElem?_getD,
    List.getElem?_set_self h]

/-- Reading below the old length is unaffected by an allocation. -/
theorem storeGet_append_lt (s t : Store) (a : Nat) (h : a < s.length) :
    storeGet (s ++ t) a = storeGet s a := by
  simp only [storeGet, List.getD_eq_getElem?_getD, List.getElem?_append,
    if_pos h]

/-- Reading the freshly allocated address yields the allocated dict. -/
theorem storeGet_append_self (s : Store) (d : HDict) :
    storeGet (s ++ [d]) s.length = d := by
  simp [storeGet, List.getD_eq_getElem?_getD, List.getElem?_concat_length]

/-- The merge loop writes only the result's address: every other address of
the store is unchanged on success. -/
theorem deepMergeRefItems_frame (raddr : Nat) (items : List (String × HVal))
    (s s2 : Store) (h : deepMergeRefItems raddr items s = Except.ok s2) :
    ∀ a, a ≠ raddr → storeGet s2 a = storeGet s a := by
  induction items generalizing s with
  | nil =>
      intro a _
      injection h with h2
      rw [h2]
  | cons kv rest ih =>
      obtain ⟨key, value⟩ := kv
      intro a ha
      simp only [deepMergeRefItems] at h
      split at h
      · split at h
        · cases h
        · rw [ih _ h a ha, storeGet_storeSet_ne s raddr _ a ha]
      · rw [ih _ h a ha, storeGet_storeSet_ne s raddr _ a ha]

/-- A key that none of the merged items assigns keeps, in the result dict,
exactly the value (by reference) it had before the loop. -/
theorem deepMergeRefItems_untouched (raddr : Nat)
    (items : List (String × HVal)) (s s2 : Store) (key : String)
    (hr : raddr < s.length)
    (h : deepMergeRefItems raddr items s = Except.ok s2)
    (hk : ∀ kv ∈ items, kv.fst ≠ key) :
    hdictGet (storeGet s2 raddr) key = hdictGet (storeGet s raddr) key := by
  induction items generalizing s with
  | nil =>
      injection h with h2
      rw [h2]
  | cons kv rest ih =>
      obtain ⟨k2, v2⟩ := kv
      have hk2 : k2 ≠ key := hk (k2, v2) (List.mem_cons_self _ _)
      have hkrest : ∀ kv ∈ rest, kv.fst ≠ key :=
        fun kv hkv => hk kv (List.mem_cons_of_mem _ hkv)
      have hlen : raddr < (storeSet s raddr
          (hdictSet (storeGet s raddr) k2 v2)).length := by
        simpa [storeSet] using hr
      simp only [deepMergeRefItems] at h
      split at h
      · split at h
        · cases h
        · rw [ih _ hlen h hkrest,
            storeGet_storeSet_self s raddr _ hr,
            hdictGet_hdictSet, if_neg hk2]
      · rw [ih _ hlen h hkrest,
          storeGet_storeSet_self s raddr _ hr,
          hdictGet_hdictSet, if_neg hk2]

/-- C8: `_deep_merge` never mutates the base dict (nor any pre-existing
object): every address of the original store reads unchanged after a
successful merge, and every key of the base dict that the override dict
does not bind keeps its exact value — the same reference — in the result
dict. -/
theorem deep_merge_no_mutation (s : Store) (a1 a2 : Nat) (s2 : Store)
    (r : Nat) (h : deepMergeRef s a1 a2 = Except.ok (s2, r)) :
    (∀ a, a < s.length → storeGet s2 a = storeGet s a) ∧
    (∀ (key : String) (v : HVal),
        hdictGet (storeGet s a1) key = some v →
        hdictGet (storeGet s a2) key = none →
        hdictGet (storeGet s2 r) key = some v) := by
  unfold deepMergeRef at h
  cases hloop : deepMergeRefItems s.length (storeGet s a2)
      (s ++ [storeGet s a1]) with
  | error e => rw [hloop] at h; cases h
  | ok s3 =>
      rw [hloop] at h
      injection h with h2
      injection h2 with hs hr
      subst hs
      subst hr
      constructor
      · intro a ha
        rw [deepMergeRefItems_frame _ _ _ _ hloop a (Nat.ne_of_lt ha),
          storeGet_append_lt s _ a ha]
      · intro key v h1 h2
        have hk : ∀ kv ∈ storeGet s a2, kv.fst ≠ key :=
          (hdictGet_eq_none_iff _ key).mp h2
        have hlen : s.length < (s ++ [storeGet s a1]).length := by simp
        rw [deepMergeRefItems_untouched _ _ _ _ key hlen hloop hk,
          storeGet_append_self s _]
        exact h1

/-- C8 witness: merging the store-allocated dicts `{"x": 1}` (base, address
0) and `{"y": 2}` (override, address 1) succeeds, returning a fresh dict at
address 2 and leaving addresses 0 and 1 unchanged. -/
theorem deep_merge_no_mutation_witness :
    (∀ a, a < ([[("x", HVal.prim 1)], [("y", HVal.prim 2)]] : Store).length →
        storeGet [[("x", HVal.prim 1)], [("y", HVal.prim 2)],
            [("x", HVal.prim 1), ("y", HVal.prim 2)]] a =
          storeGet [[("x", HVal.prim 1)], [("y", HVal.prim 2)]] a) ∧
    (∀ (key : String) (v : HVal),
        hdictGet
            (storeGet [[("x", HVal.prim 1)], [("y", HVal.prim 2)]] 0) key =
          some v →
        hdictGet
            (storeGet [[("x", HVal.prim 1)], [("y", HVal.prim 2)]] 1) key =
          none →
        hdictGet
            (storeGet [[("x", HVal.prim 1)], [("y", HVal.prim 2)],
              [("x", HVal.prim 1), ("y", HVal.prim 2)]] 2) key = some v) :=
  deep_merge_no_mutation [[("x", HVal.prim 1)], [("y", HVal.prim 2)]] 0 1
    [[("x", HVal.prim 1)], [("y", HVal.prim 2)],
      [("x", HVal.prim 1), ("y", HVal.prim 2)]] 2 rfl
